import Mathlib

/-!
Verification of the drone-swarm simulation core.

This file gives a shallow embedding, in Lean 4, of the core operations of the
simulation: the knowledge maps and gossip merge of `classes/drone.py`, the
control-center aggregation of `classes/control_center.py`, the intervention
classification of `classes/anomaly.py`, and the kinematic/energy model of
`Drone.move_towards_target` and the feasibility functions.

Python dicts are embedded as insertion-ordered association lists
(`List (Key × V)`) with first-key-wins lookup, matching Python dict
semantics (one entry per key, assignment replaces in place, new keys are
appended at the end).  Python sets are embedded as `Finset`.  Floating
point numbers are embedded as real numbers where irrational values arise
(positions and battery of the kinematic model) and as rationals where the
code only ever moves exact values around (knowledge records).
-/

namespace Swarm

/-! ### Association-list maps (Python dict embedding) -/

/-- First-key-wins lookup in an association list (Python `d[k]` / `k in d`). -/
def mlookup {V : Type} (k : ℤ × ℤ) : List ((ℤ × ℤ) × V) → Option V
  | [] => none
  | (k₁, v) :: l => if k₁ = k then some v else mlookup k l

/-- Python dict assignment `d[k] = v`: replace the value in place if the key is
present, otherwise append the new entry at the end. -/
def mput {V : Type} (k : ℤ × ℤ) (v : V) : List ((ℤ × ℤ) × V) → List ((ℤ × ℤ) × V)
  | [] => [(k, v)]
  | (k₁, v₁) :: l => if k₁ = k then (k₁, v) :: l else (k₁, v₁) :: mput k v l

/-- Python `if k not in d: d[k] = v`. -/
def minsertAbsent {V : Type} (k : ℤ × ℤ) (v : V) (m : List ((ℤ × ℤ) × V)) :
    List ((ℤ × ℤ) × V) :=
  if (mlookup k m).isSome then m else m ++ [(k, v)]

/-- Keys of an association list, in order. -/
def mkeys {V : Type} (m : List ((ℤ × ℤ) × V)) : List (ℤ × ℤ) :=
  m.map Prod.fst

theorem mlookup_mput {V : Type} (k k₁ : ℤ × ℤ) (v : V) (m : List ((ℤ × ℤ) × V)) :
    mlookup k (mput k₁ v m) = if k₁ = k then some v else mlookup k m := by
  induction m with
  | nil => by_cases h : k₁ = k <;> simp [mput, mlookup, h]
  | cons p l ih =>
    obtain ⟨k₂, v₂⟩ := p
    by_cases h₂ : k₂ = k₁ <;> by_cases h : k₂ = k <;>
        by_cases hk : k₁ = k <;>
      simp only [mput, mlookup, h₂, h, hk, if_true, if_false, ih] <;> simp_all [mlookup]

theorem mlookup_append_left {V : Type} (k : ℤ × ℤ) (v : V)
    (m₁ m₂ : List ((ℤ × ℤ) × V)) (h : mlookup k m₁ = some v) :
    mlookup k (m₁ ++ m₂) = some v := by
  induction m₁ with
  | nil => simp [mlookup] at h
  | cons p l ih =>
    obtain ⟨k₁, v₁⟩ := p
    by_cases hk : k₁ = k <;> simp_all [mlookup]

theorem mlookup_append_right {V : Type} (k : ℤ × ℤ)
    (m₁ m₂ : List ((ℤ × ℤ) × V)) (h : mlookup k m₁ = none) :
    mlookup k (m₁ ++ m₂) = mlookup k m₂ := by
  induction m₁ with
  | nil => simp [mlookup]
  | cons p l ih =>
    obtain ⟨k₁, v₁⟩ := p
    by_cases hk : k₁ = k <;> simp_all [mlookup]

theorem mlookup_minsertAbsent_of_none {V : Type} (k k₁ : ℤ × ℤ) (v : V)
    (m : List ((ℤ × ℤ) × V)) (hm : mlookup k₁ m = none) :
    mlookup k (minsertAbsent k₁ v m) = if k₁ = k then some v else mlookup k m := by
  unfold minsertAbsent
  simp only [hm, Option.isSome_none, Bool.false_eq_true, if_false]
  by_cases h : k₁ = k
  · subst h
    rw [mlookup_append_right _ _ _ hm]
    simp [mlookup]
  · rcases hmk : mlookup k m with _ | v₂
    · rw [mlookup_append_right _ _ _ hmk]
      simp [mlookup, h]
    · rw [mlookup_append_left _ _ _ _ hmk]
      simp [h]

theorem minsertAbsent_of_isSome {V : Type} (k : ℤ × ℤ) (v : V)
    (m : List ((ℤ × ℤ) × V)) (h : (mlookup k m).isSome) :
    minsertAbsent k v m = m := by
  simp [minsertAbsent, h]

theorem mlookup_minsertAbsent_other {V : Type} (k k₁ : ℤ × ℤ) (v : V)
    (m : List ((ℤ × ℤ) × V)) (h : ¬ k₁ = k) :
    mlookup k (minsertAbsent k₁ v m) = mlookup k m := by
  unfold minsertAbsent
  by_cases hs : (mlookup k₁ m).isSome
  · simp [hs]
  · rw [if_neg hs]
    rcases hmk : mlookup k m with _ | v₂
    · rw [mlookup_append_right _ _ _ hmk]
      simp [mlookup, h]
    · rw [mlookup_append_left _ _ _ _ hmk]

theorem mput_of_mlookup_eq {V : Type} (k : ℤ × ℤ) (v : V)
    (m : List ((ℤ × ℤ) × V)) (h : mlookup k m = some v) :
    mput k v m = m := by
  induction m with
  | nil => simp [mlookup] at h
  | cons p l ih =>
    obtain ⟨k₁, v₁⟩ := p
    by_cases hk : k₁ = k
    · simp only [mlookup, if_pos hk, Option.some.injEq] at h
      simp [mput, hk, h]
    · simp only [mlookup, if_neg hk] at h
      simp [mput, hk, ih h]

/-! ### Configuration constants (`config.py`) -/

/-- Python `int(q)`: truncation toward zero (from the position-key conversions
`(int(pos[0]), int(pos[1]))` used throughout `drone.py`). -/
def pyInt (q : ℚ) : ℤ :=
  if q < 0 then -⌊-q⌋ else ⌊q⌋

/-- Position key `(int(pos[0]), int(pos[1]))`. -/
def pyKey (p : ℚ × ℚ) : ℤ × ℤ :=
  (pyInt p.1, pyInt p.2)

/-- The global strategy selector `config.ROBOT_STRATEGY`. -/
inductive Strategy where
  | action
  | exploration
  | mixte
deriving DecidableEq

/-- Value `config.ROBOT_STRATEGY = 'action'`. -/
def ROBOT_STRATEGY : Strategy := Strategy.action

/-- Value `config.COMMUNICATION_RADIUS = 10.0`. -/
def COMMUNICATION_RADIUS : ℚ := 10

/-- Value `config.VISION_RADIUS = 10.0`. -/
def VISION_RADIUS : ℚ := 10

/-! ### Knowledge records (`classes/anomaly.py` and the drone detection dicts) -/

/-- The `Anomaly` dataclass of `classes/anomaly.py` (the fields used by the
core logic; the sensor-reading and evolution methods are out of scope of the
claims about knowledge handling). -/
structure Anomaly where
  x : ℚ
  y : ℚ
  intensity : ℕ
  radius : ℚ
  type : String
  treated : Bool
  being_treated_by : ℤ
deriving DecidableEq

/-- The anomaly-information dict built in `Drone.detect_anomalies_in_range`:
`{'anomaly': obj, 'intensity': ..., 'is_intense': ..., 'distance': ...,
'position': (x, y)}`.  The `anomaly` entry is a snapshot of the referenced
`Anomaly` object (`None` when absent).  The float `distance` entry is pure
payload — none of the embedded operations ever reads it — and is omitted. -/
structure AnomalyData where
  anomaly : Option Anomaly
  intensity : ℕ
  is_intense : Bool
  position : ℚ × ℚ
deriving DecidableEq

/-! ### Drone knowledge state (`classes/drone.py`) -/

/-- The knowledge-level state of a `Drone`: its identifier, position, at-base
flag and the personal maps mutated by the gossip protocol and the
control-center synchronisation.  The kinematic state (real-valued battery and
movement) is modelled separately by `DroneM` below. -/
structure DroneKnow where
  id : ℤ
  x : ℚ
  y : ℚ
  is_at_base : Bool
  personal_exploration_map : List ((ℤ × ℤ) × Bool)
  personal_anomaly_map : List ((ℤ × ℤ) × AnomalyData)
  detected_anomalies : List AnomalyData
  anomalies_being_treated_by_others : List ((ℤ × ℤ) × ℤ)
  zones_being_explored_by_others : List ((ℤ × ℤ) × ℤ)
  target_x : Option ℚ
  target_y : Option ℚ
  target_anomaly : Option AnomalyData
deriving DecidableEq

/-- The offsets `(dx, dy)` with `dx, dy ∈ range(-15, 16)` and
`dx*dx + dy*dy <= 15*15 = 225`, in Python loop order (`dx` outer). -/
def zoneOffsets : List (ℤ × ℤ) :=
  ((List.range 31).map fun (i : ℕ) => (i : ℤ) - 15).flatMap fun dx =>
    (((List.range 31).map fun (j : ℕ) => (j : ℤ) - 15).filter
        fun dy => decide (dx * dx + dy * dy ≤ 225)).map fun dy => (dx, dy)

/-- The zone keys marked by `Drone.share_exploration_map` around an
exploration target: `(int(target_x + dx), int(target_y + dy))` for each offset,
restricted by the hard-coded map-bounds check `0 <= k < 100`. -/
def shareZoneKeys (tx ty : ℚ) : List (ℤ × ℤ) :=
  (zoneOffsets.map fun d => (pyInt (tx + (d.1 : ℚ)), pyInt (ty + (d.2 : ℚ)))).filter
    fun k => decide (0 ≤ k.1 ∧ k.1 < 100 ∧ 0 ≤ k.2 ∧ k.2 < 100)

/-- Marking a list of zone keys as claimed by drone `i`:
`zones_being_explored_by_others[zone_key] = drone_id` for each key. -/
def markZones (i : ℤ) (ks : List (ℤ × ℤ)) (z : List ((ℤ × ℤ) × ℤ)) :
    List ((ℤ × ℤ) × ℤ) :=
  ks.foldl (fun m k => mput k i m) z

/-- One step of the anomaly-sharing loop of `Drone.share_exploration_map`:
state is the receiver's `(personal_anomaly_map, detected_anomalies)` pair;
`e` is one `(pos, anomaly_data)` item of the sender's map;  `claims` is the
sender's `anomalies_being_treated_by_others` dict. -/
def shareAnomStep (claims : List ((ℤ × ℤ) × ℤ))
    (s : List ((ℤ × ℤ) × AnomalyData) × List AnomalyData)
    (e : (ℤ × ℤ) × AnomalyData) :
    List ((ℤ × ℤ) × AnomalyData) × List AnomalyData :=
  if (mlookup e.1 s.1).isSome then s
  else
    let pam := s.1 ++ [(e.1, e.2)]
    let already := s.2.any fun a => a.position = e.2.position
    if already = false ∧ (mlookup e.1 claims).isSome = false then
      (pam, s.2 ++ [e.2])
    else
      (pam, s.2)

/-- Part 1 of `Drone.share_exploration_map`: copy the sender's explored cells
into the receiver, inserting only cells the receiver does not yet hold. -/
def shareExpl (src dst : List ((ℤ × ℤ) × Bool)) : List ((ℤ × ℤ) × Bool) :=
  src.foldl (fun m e => if e.2 = true then minsertAbsent e.1 true m else m) dst

/-- Part 2 of `Drone.share_exploration_map`: copy the sender's anomaly records
into the receiver's `(personal_anomaly_map, detected_anomalies)` pair. -/
def shareAnoms (A : DroneKnow)
    (s : List ((ℤ × ℤ) × AnomalyData) × List AnomalyData) :
    List ((ℤ × ℤ) × AnomalyData) × List AnomalyData :=
  A.personal_anomaly_map.foldl (shareAnomStep A.anomalies_being_treated_by_others) s

/-- Part 3 of `Drone.share_exploration_map`: copy the sender's claimed-hazard
markers into the receiver (dict assignment, overwriting). -/
def shareClaims (src dst : List ((ℤ × ℤ) × ℤ)) : List ((ℤ × ℤ) × ℤ) :=
  src.foldl (fun m e => mput e.1 e.2 m) dst

/-- Part 4 of `Drone.share_exploration_map`: when the sender holds a plain
exploration target (both coordinates set, no target anomaly), mark the disk of
zones around it as claimed by the sender in the receiver's map. -/
def shareZones (A : DroneKnow) (z : List ((ℤ × ℤ) × ℤ)) : List ((ℤ × ℤ) × ℤ) :=
  match A.target_x, A.target_y, A.target_anomaly with
  | some tx, some ty, none => markZones A.id (shareZoneKeys tx ty) z
  | _, _, _ => z

/-- Source `Drone.share_exploration_map(self = A, other = B)`: merge agent `A`'s
knowledge into agent `B` and return the updated `B`.  Four parts, in source
order: explored cells (insert-if-absent), anomaly records (insert-if-absent,
with a conditional append to the pending list), claimed-hazard markers
(overwriting copy) and, when `A` holds a plain exploration target, the claimed
disk of zones around that target. -/
def share_exploration_map (A B : DroneKnow) : DroneKnow :=
  { B with
    personal_exploration_map :=
      shareExpl A.personal_exploration_map B.personal_exploration_map
    personal_anomaly_map :=
      (shareAnoms A (B.personal_anomaly_map, B.detected_anomalies)).1
    detected_anomalies :=
      (shareAnoms A (B.personal_anomaly_map, B.detected_anomalies)).2
    anomalies_being_treated_by_others :=
      shareClaims A.anomalies_being_treated_by_others
        B.anomalies_being_treated_by_others
    zones_being_explored_by_others :=
      shareZones A B.zones_being_explored_by_others }

/-! ### Idempotence of the gossip merge -/

theorem mlookup_minsertAbsent_isSome_mono {V : Type} (k k₁ : ℤ × ℤ) (v : V)
    (m : List ((ℤ × ℤ) × V)) (h : (mlookup k m).isSome) :
    (mlookup k (minsertAbsent k₁ v m)).isSome := by
  unfold minsertAbsent
  by_cases hs : (mlookup k₁ m).isSome
  · rw [if_pos hs]
    exact h
  · rw [if_neg hs]
    rcases hmk : mlookup k m with _ | v₂
    · rw [hmk] at h
      simp at h
    · rw [mlookup_append_left _ _ _ _ hmk]
      rfl

theorem mlookup_minsertAbsent_self_isSome {V : Type} (k : ℤ × ℤ) (v : V)
    (m : List ((ℤ × ℤ) × V)) :
    (mlookup k (minsertAbsent k v m)).isSome := by
  unfold minsertAbsent
  by_cases hs : (mlookup k m).isSome
  · rw [if_pos hs]
    exact hs
  · rw [if_neg hs]
    rcases hmk : mlookup k m with _ | v₂
    · rw [mlookup_append_right _ _ _ hmk]
      simp [mlookup]
    · exact absurd (by simp [hmk]) hs

/-- The explored-cells part of `share_exploration_map` as a fold step. -/
def explStep {V : Type} (m : List ((ℤ × ℤ) × V)) (e : (ℤ × ℤ) × Bool)
    (v : V) : List ((ℤ × ℤ) × V) :=
  if e.2 = true then minsertAbsent e.1 v m else m

theorem explFold_isSome_mono (k : ℤ × ℤ) (l : List ((ℤ × ℤ) × Bool))
    (m : List ((ℤ × ℤ) × Bool)) (h : (mlookup k m).isSome) :
    (mlookup k (l.foldl (fun m e => if e.2 = true then minsertAbsent e.1 true m else m) m)).isSome := by
  induction l generalizing m with
  | nil => exact h
  | cons e l ih =>
    apply ih
    by_cases he : e.2 = true
    · simpa [he] using mlookup_minsertAbsent_isSome_mono k e.1 true m h
    · simpa [he] using h

theorem explFold_mem_isSome (e : (ℤ × ℤ) × Bool) (l : List ((ℤ × ℤ) × Bool))
    (m : List ((ℤ × ℤ) × Bool)) (hel : e ∈ l) (he : e.2 = true) :
    (mlookup e.1 (l.foldl (fun m e => if e.2 = true then minsertAbsent e.1 true m else m) m)).isSome := by
  induction l generalizing m with
  | nil => cases hel
  | cons e₀ l ih =>
    rcases List.mem_cons.1 hel with h₀ | h₀
    · subst h₀
      simp only [List.foldl_cons, he, if_true]
      exact explFold_isSome_mono e.1 l _ (mlookup_minsertAbsent_self_isSome e.1 true m)
    · simp only [List.foldl_cons]
      exact ih _ h₀

theorem explFold_id (l : List ((ℤ × ℤ) × Bool)) (m : List ((ℤ × ℤ) × Bool))
    (h : ∀ e ∈ l, e.2 = true → (mlookup e.1 m).isSome) :
    l.foldl (fun m e => if e.2 = true then minsertAbsent e.1 true m else m) m = m := by
  induction l with
  | nil => rfl
  | cons e l ih =>
    have hstep : (if e.2 = true then minsertAbsent e.1 true m else m) = m := by
      by_cases he : e.2 = true
      · rw [if_pos he]
        exact minsertAbsent_of_isSome _ _ _ (h e (List.mem_cons_self e l) he)
      · rw [if_neg he]
    simp only [List.foldl_cons, hstep]
    exact ih fun e₁ h₁ => h (e₁) (List.mem_cons_of_mem e h₁)

theorem anomStep_fst (claims : List ((ℤ × ℤ) × ℤ))
    (s : List ((ℤ × ℤ) × AnomalyData) × List AnomalyData)
    (e : (ℤ × ℤ) × AnomalyData) :
    (shareAnomStep claims s e).1 = s.1 ∨
      (shareAnomStep claims s e).1 = s.1 ++ [(e.1, e.2)] := by
  unfold shareAnomStep
  split
  · exact Or.inl rfl
  · dsimp only
    split
    · exact Or.inr rfl
    · exact Or.inr rfl

theorem anomStep_fst_isSome_mono (claims : List ((ℤ × ℤ) × ℤ)) (k : ℤ × ℤ)
    (s : List ((ℤ × ℤ) × AnomalyData) × List AnomalyData)
    (e : (ℤ × ℤ) × AnomalyData) (h : (mlookup k s.1).isSome) :
    (mlookup k (shareAnomStep claims s e).1).isSome := by
  rcases hmk : mlookup k s.1 with _ | v₂
  · rw [hmk] at h
    simp at h
  · rcases anomStep_fst claims s e with hf | hf
    · simp [hf, hmk]
    · rw [hf, mlookup_append_left _ _ _ _ hmk]
      rfl

theorem anomStep_self_isSome (claims : List ((ℤ × ℤ) × ℤ))
    (s : List ((ℤ × ℤ) × AnomalyData) × List AnomalyData)
    (e : (ℤ × ℤ) × AnomalyData) :
    (mlookup e.1 (shareAnomStep claims s e).1).isSome := by
  by_cases hs : (mlookup e.1 s.1).isSome
  · exact anomStep_fst_isSome_mono claims e.1 s e hs
  · have hnone : mlookup e.1 s.1 = none := by
      rcases hmk : mlookup e.1 s.1 with _ | v₂
      · rfl
      · exact absurd (by simp [hmk]) hs
    have hfst : (shareAnomStep claims s e).1 = s.1 ++ [(e.1, e.2)] := by
      unfold shareAnomStep
      rw [if_neg hs]
      dsimp only
      split
      · rfl
      · rfl
    rw [hfst, mlookup_append_right _ _ _ hnone]
    simp [mlookup]

theorem anomFold_fst_isSome_mono (claims : List ((ℤ × ℤ) × ℤ)) (k : ℤ × ℤ)
    (l : List ((ℤ × ℤ) × AnomalyData))
    (s : List ((ℤ × ℤ) × AnomalyData) × List AnomalyData)
    (h : (mlookup k s.1).isSome) :
    (mlookup k (l.foldl (shareAnomStep claims) s).1).isSome := by
  induction l generalizing s with
  | nil => exact h
  | cons e l ih => exact ih _ (anomStep_fst_isSome_mono claims k s e h)

theorem anomFold_mem_isSome (claims : List ((ℤ × ℤ) × ℤ))
    (e : (ℤ × ℤ) × AnomalyData) (l : List ((ℤ × ℤ) × AnomalyData))
    (s : List ((ℤ × ℤ) × AnomalyData) × List AnomalyData) (hel : e ∈ l) :
    (mlookup e.1 (l.foldl (shareAnomStep claims) s).1).isSome := by
  induction l generalizing s with
  | nil => cases hel
  | cons e₀ l ih =>
    rcases List.mem_cons.1 hel with h₀ | h₀
    · subst h₀
      simp only [List.foldl_cons]
      exact anomFold_fst_isSome_mono claims e.1 l _ (anomStep_self_isSome claims s e)
    · simp only [List.foldl_cons]
      exact ih _ h₀

theorem anomFold_id (claims : List ((ℤ × ℤ) × ℤ))
    (l : List ((ℤ × ℤ) × AnomalyData))
    (s : List ((ℤ × ℤ) × AnomalyData) × List AnomalyData)
    (h : ∀ e ∈ l, (mlookup e.1 s.1).isSome) :
    l.foldl (shareAnomStep claims) s = s := by
  induction l with
  | nil => rfl
  | cons e l ih =>
    have hstep : shareAnomStep claims s e = s := by
      have hs := h e (List.mem_cons_self e l)
      unfold shareAnomStep
      rw [if_pos hs]
    simp only [List.foldl_cons, hstep]
    exact ih fun e₁ h₁ => h e₁ (List.mem_cons_of_mem e h₁)

theorem lookup_putFold_not_mem {V : Type} (k : ℤ × ℤ)
    (l : List ((ℤ × ℤ) × V)) (m : List ((ℤ × ℤ) × V)) (h : k ∉ mkeys l) :
    mlookup k (l.foldl (fun m e => mput e.1 e.2 m) m) = mlookup k m := by
  induction l generalizing m with
  | nil => rfl
  | cons e l ih =>
    have hk : ¬ e.1 = k := by
      intro hk
      exact h (by simp [mkeys, hk])
    have hl : k ∉ mkeys l := fun hm => h (by simp [mkeys] at hm ⊢; exact Or.inr hm)
    simp only [List.foldl_cons]
    rw [ih _ hl, mlookup_mput, if_neg hk]

theorem putFold_idem {V : Type} (l : List ((ℤ × ℤ) × V))
    (m : List ((ℤ × ℤ) × V)) (h : (mkeys l).Nodup) :
    l.foldl (fun m e => mput e.1 e.2 m) (l.foldl (fun m e => mput e.1 e.2 m) m) =
      l.foldl (fun m e => mput e.1 e.2 m) m := by
  induction l generalizing m with
  | nil => rfl
  | cons e l ih =>
    have hnd : (mkeys l).Nodup := (List.nodup_cons.1 h).2
    have hke : e.1 ∉ mkeys l := (List.nodup_cons.1 h).1
    simp only [List.foldl_cons]
    have hlook : mlookup e.1 (l.foldl (fun m e => mput e.1 e.2 m) (mput e.1 e.2 m)) =
        some e.2 := by
      rw [lookup_putFold_not_mem _ _ _ hke, mlookup_mput, if_pos rfl]
    rw [mput_of_mlookup_eq _ _ _ hlook]
    exact ih _ hnd

theorem lookup_markZones_not_mem (i : ℤ) (k : ℤ × ℤ) (ks : List (ℤ × ℤ))
    (z : List ((ℤ × ℤ) × ℤ)) (h : k ∉ ks) :
    mlookup k (markZones i ks z) = mlookup k z := by
  induction ks generalizing z with
  | nil => rfl
  | cons k₀ ks ih =>
    have hk : ¬ k₀ = k := fun hk => h (by simp [hk])
    have hks : k ∉ ks := fun hm => h (List.mem_cons_of_mem k₀ hm)
    simp only [markZones, List.foldl_cons]
    rw [show ks.foldl (fun m k => mput k i m) (mput k₀ i z) = markZones i ks (mput k₀ i z) from rfl,
      ih _ hks, mlookup_mput, if_neg hk]

theorem lookup_markZones_mem (i : ℤ) (k : ℤ × ℤ) (ks : List (ℤ × ℤ))
    (z : List ((ℤ × ℤ) × ℤ)) (h : k ∈ ks) :
    mlookup k (markZones i ks z) = some i := by
  induction ks generalizing z with
  | nil => cases h
  | cons k₀ ks ih =>
    by_cases hk : k ∈ ks
    · simpa only [markZones, List.foldl_cons] using ih _ hk
    · have hk₀ : k₀ = k := by
        rcases List.mem_cons.1 h with h₀ | h₀
        · exact h₀.symm
        · exact absurd h₀ hk
      simp only [markZones, List.foldl_cons]
      rw [show ks.foldl (fun m k => mput k i m) (mput k₀ i z) = markZones i ks (mput k₀ i z) from rfl,
        lookup_markZones_not_mem i k ks _ hk, mlookup_mput, if_pos hk₀]

theorem markZones_of_all_lookup (i : ℤ) (ks : List (ℤ × ℤ))
    (z : List ((ℤ × ℤ) × ℤ)) (h : ∀ k ∈ ks, mlookup k z = some i) :
    markZones i ks z = z := by
  induction ks with
  | nil => rfl
  | cons k₀ ks ih =>
    simp only [markZones, List.foldl_cons]
    rw [mput_of_mlookup_eq _ _ _ (h k₀ (List.mem_cons_self k₀ ks))]
    exact ih fun k hk => h k (List.mem_cons_of_mem k₀ hk)

theorem markZones_idem (i : ℤ) (ks : List (ℤ × ℤ)) (z : List ((ℤ × ℤ) × ℤ)) :
    markZones i ks (markZones i ks z) = markZones i ks z :=
  markZones_of_all_lookup i ks _ fun k hk => lookup_markZones_mem i k ks z hk

theorem shareZones_idem (A : DroneKnow) (z : List ((ℤ × ℤ) × ℤ)) :
    shareZones A (shareZones A z) = shareZones A z := by
  unfold shareZones
  rcases A.target_x with _ | tx
  · rfl
  · rcases A.target_y with _ | ty
    · rfl
    · rcases A.target_anomaly with _ | ta
      · exact markZones_idem _ _ _
      · rfl

/-- Claim C6: knowledge-map merge is idempotent.  Applying agent `A`'s
knowledge-map merge (`Drone.share_exploration_map`) into agent `B` twice in
succession leaves `B` in the same state — exploration map, hazard map,
pending-hazards list, claimed-by-others markers and claimed-zones markers —
as applying it once.  The hypothesis states that `A`'s claimed-hazard dict has
one entry per key, which is automatic for a Python dict. -/
theorem share_exploration_map_idempotent (A B : DroneKnow)
    (h : (mkeys A.anomalies_being_treated_by_others).Nodup) :
    share_exploration_map A (share_exploration_map A B) =
      share_exploration_map A B := by
  have he : shareExpl A.personal_exploration_map
      (share_exploration_map A B).personal_exploration_map =
      (share_exploration_map A B).personal_exploration_map :=
    explFold_id _ _ fun e hel hv =>
      explFold_mem_isSome e _ B.personal_exploration_map hel hv
  have hpair : shareAnoms A
      ((share_exploration_map A B).personal_anomaly_map,
        (share_exploration_map A B).detected_anomalies) =
      ((share_exploration_map A B).personal_anomaly_map,
        (share_exploration_map A B).detected_anomalies) :=
    anomFold_id _ _ _ fun e hel =>
      anomFold_mem_isSome A.anomalies_being_treated_by_others e _
        (B.personal_anomaly_map, B.detected_anomalies) hel
  have hc : shareClaims A.anomalies_being_treated_by_others
      (share_exploration_map A B).anomalies_being_treated_by_others =
      (share_exploration_map A B).anomalies_being_treated_by_others :=
    putFold_idem _ _ h
  have hz : shareZones A
      (share_exploration_map A B).zones_being_explored_by_others =
      (share_exploration_map A B).zones_being_explored_by_others :=
    shareZones_idem A B.zones_being_explored_by_others
  show ({ share_exploration_map A B with
    personal_exploration_map :=
      shareExpl A.personal_exploration_map
        (share_exploration_map A B).personal_exploration_map
    personal_anomaly_map :=
      (shareAnoms A ((share_exploration_map A B).personal_anomaly_map,
        (share_exploration_map A B).detected_anomalies)).1
    detected_anomalies :=
      (shareAnoms A ((share_exploration_map A B).personal_anomaly_map,
        (share_exploration_map A B).detected_anomalies)).2
    anomalies_being_treated_by_others :=
      shareClaims A.anomalies_being_treated_by_others
        (share_exploration_map A B).anomalies_being_treated_by_others
    zones_being_explored_by_others :=
      shareZones A (share_exploration_map A B).zones_being_explored_by_others } :
    DroneKnow) = share_exploration_map A B
  rw [he, hc, hz, hpair]

/-- A sample anomaly for concrete states. -/
def anomalySample : Anomaly :=
  { x := 5, y := 6, intensity := 2, radius := 3, type := "radiation",
    treated := false, being_treated_by := -1 }

/-- A sample anomaly-information record for concrete states. -/
def anomDataSample : AnomalyData :=
  { anomaly := some anomalySample, intensity := 2, is_intense := true,
    position := (5, 6) }

/-- A concrete sender state for the idempotence witness. -/
def droneKnowA : DroneKnow :=
  { id := 1, x := 0, y := 0, is_at_base := true,
    personal_exploration_map := [((3, 4), true)],
    personal_anomaly_map := [((5, 6), anomDataSample)],
    detected_anomalies := [anomDataSample],
    anomalies_being_treated_by_others := [((7, 8), 2)],
    zones_being_explored_by_others := [],
    target_x := some 20, target_y := some 30, target_anomaly := none }

/-- A concrete receiver state for the idempotence witness. -/
def droneKnowB : DroneKnow :=
  { id := 2, x := 3, y := 0, is_at_base := false,
    personal_exploration_map := [((9, 9), true)],
    personal_anomaly_map := [],
    detected_anomalies := [],
    anomalies_being_treated_by_others := [],
    zones_being_explored_by_others := [],
    target_x := none, target_y := none, target_anomaly := none }

/-- Witness for claim C6 at a concrete pair of agent states. -/
theorem share_exploration_map_idempotent_witness :
    (mkeys droneKnowA.anomalies_being_treated_by_others).Nodup ∧
      share_exploration_map droneKnowA (share_exploration_map droneKnowA droneKnowB) =
        share_exploration_map droneKnowA droneKnowB :=
  ⟨by decide, share_exploration_map_idempotent droneKnowA droneKnowB (by decide)⟩

/-! ### Pairwise gossip (`Drone.communicate_with_nearby_drones`) -/

/-- Source `Drone.calculate_distance`: Euclidean distance
`np.sqrt((x1 - x2)**2 + (y1 - y2)**2)`. -/
noncomputable def calculate_distance (x1 y1 x2 y2 : ℝ) : ℝ :=
  Real.sqrt ((x1 - x2) ^ 2 + (y1 - y2) ^ 2)

/-- Distance between two drones at their knowledge-level positions. -/
noncomputable def droneDistance (A B : DroneKnow) : ℝ :=
  calculate_distance (A.x : ℝ) (A.y : ℝ) (B.x : ℝ) (B.y : ℝ)

open Classical in
/-- One in-range exchange of `Drone.communicate_with_nearby_drones` for the
pair `(A, B)`: when the pairwise distance is within
`config.COMMUNICATION_RADIUS` the pass runs `A.share_exploration_map(B)`
followed by `B.share_exploration_map(A)` on the updated `B`; otherwise it is a
no-op.  Returns the updated `(A, B)`. -/
noncomputable def communicate_pair (A B : DroneKnow) : DroneKnow × DroneKnow :=
  if droneDistance A B ≤ ((COMMUNICATION_RADIUS : ℚ) : ℝ) then
    let B₁ := share_exploration_map A B
    let A₁ := share_exploration_map B₁ A
    (A₁, B₁)
  else (A, B)

theorem anomStep_lookup_of_some (claims : List ((ℤ × ℤ) × ℤ)) (k : ℤ × ℤ)
    (v : AnomalyData) (s : List ((ℤ × ℤ) × AnomalyData) × List AnomalyData)
    (e : (ℤ × ℤ) × AnomalyData) (h : mlookup k s.1 = some v) :
    mlookup k (shareAnomStep claims s e).1 = some v := by
  rcases anomStep_fst claims s e with hf | hf
  · rw [hf, h]
  · rw [hf, mlookup_append_left _ _ _ _ h]

theorem anomFold_lookup_of_some (claims : List ((ℤ × ℤ) × ℤ)) (k : ℤ × ℤ)
    (v : AnomalyData) (l : List ((ℤ × ℤ) × AnomalyData))
    (s : List ((ℤ × ℤ) × AnomalyData) × List AnomalyData)
    (h : mlookup k s.1 = some v) :
    mlookup k (l.foldl (shareAnomStep claims) s).1 = some v := by
  induction l generalizing s with
  | nil => exact h
  | cons e l ih =>
    simp only [List.foldl_cons]
    exact ih _ (anomStep_lookup_of_some claims k v s e h)

theorem anomFold_lookup_transfer (claims : List ((ℤ × ℤ) × ℤ)) (k : ℤ × ℤ)
    (d : AnomalyData) (l : List ((ℤ × ℤ) × AnomalyData))
    (s : List ((ℤ × ℤ) × AnomalyData) × List AnomalyData)
    (hl : mlookup k l = some d) (hs : mlookup k s.1 = none) :
    mlookup k (l.foldl (shareAnomStep claims) s).1 = some d := by
  induction l generalizing s with
  | nil => simp [mlookup] at hl
  | cons e l ih =>
    obtain ⟨k₀, d₀⟩ := e
    simp only [List.foldl_cons]
    by_cases hk : k₀ = k
    · subst hk
      simp only [mlookup, eq_self_iff_true, if_true, Option.some.injEq] at hl
      rw [← hl]
      apply anomFold_lookup_of_some
      have hfst : (shareAnomStep claims s (k₀, d₀)).1 = s.1 ++ [(k₀, d₀)] := by
        have hss : ¬ (mlookup (k₀, d₀).1 s.1).isSome = true := by simp [hs]
        unfold shareAnomStep
        rw [if_neg hss]
        dsimp only
        split
        · rfl
        · rfl
      rw [hfst, mlookup_append_right _ _ _ hs]
      simp [mlookup]
    · simp only [mlookup, if_neg hk] at hl
      apply ih _ hl
      rcases anomStep_fst claims s (k₀, d₀) with hf | hf
      · rw [hf, hs]
      · rw [hf, mlookup_append_right _ _ _ hs]
        simp [mlookup, hk]

/-- Claim C7: for two agents within communication radius, where agent `A`
holds a hazard record that agent `B` does not, one gossip pass leaves `B`'s
personal hazard map containing the very same record at the same position key
(hence with the same position and the same severity). -/
theorem gossip_pass_transfers_hazard (A B : DroneKnow) (k : ℤ × ℤ)
    (d : AnomalyData)
    (hrange : droneDistance A B ≤ ((COMMUNICATION_RADIUS : ℚ) : ℝ))
    (hA : mlookup k A.personal_anomaly_map = some d)
    (hB : mlookup k B.personal_anomaly_map = none) :
    mlookup k ((communicate_pair A B).2.personal_anomaly_map) = some d := by
  unfold communicate_pair
  rw [if_pos hrange]
  show mlookup k (share_exploration_map A B).personal_anomaly_map = some d
  exact anomFold_lookup_transfer _ _ _ _ _ hA hB

/-- Witness for claim C7: two concrete agents three cells apart. -/
theorem gossip_pass_transfers_hazard_witness :
    mlookup (5, 6) ((communicate_pair droneKnowA droneKnowB).2.personal_anomaly_map) =
      some anomDataSample := by
  have hrange : droneDistance droneKnowA droneKnowB ≤ ((COMMUNICATION_RADIUS : ℚ) : ℝ) := by
    have h9 : droneDistance droneKnowA droneKnowB = Real.sqrt 9 := by
      unfold droneDistance calculate_distance droneKnowA droneKnowB
      norm_num
    have h3 : Real.sqrt 9 = 3 := by
      rw [show (9 : ℝ) = 3 ^ 2 by norm_num]
      exact Real.sqrt_sq (by norm_num)
    rw [h9, h3, COMMUNICATION_RADIUS]
    norm_num
  exact gossip_pass_transfers_hazard droneKnowA droneKnowB (5, 6) anomDataSample
    hrange (by decide) (by decide)

/-! ### Action announcements (`Drone.receive_action_announcement`) -/

/-- The `type` entry of a `next_planned_action` dict
(`'treat_anomaly'`, `'explore'`, `'return_base'`). -/
inductive ActionType where
  | treat_anomaly
  | explore
  | return_base
deriving DecidableEq

/-- The `next_planned_action` dict built in `Drone.announce_next_action`. -/
structure ActionInfo where
  type : ActionType
  target : ℚ × ℚ
  drone_id : ℤ
  anomaly : Option AnomalyData
deriving DecidableEq

/-- The zone keys marked by the `'explore'` branch of
`Drone.receive_action_announcement`:
`(int(target_x + dx), int(target_y + dy))` for every offset with
`dx*dx + dy*dy <= 15*15` — with no map-bounds restriction, unlike
`shareZoneKeys`. -/
def recvZoneKeys (tx ty : ℚ) : List (ℤ × ℤ) :=
  zoneOffsets.map fun d => (pyInt (tx + (d.1 : ℚ)), pyInt (ty + (d.2 : ℚ)))

/-- Source `Drone.receive_action_announcement(self = B, action_info = info)`.
For a hazard claim: record the claimant, drop the hazard from the pending
queue (except under the `'exploration'` strategy) and clear the own target if
it was that hazard.  For an exploration claim: mark the disk of zones around
the announced target as claimed and clear the own target if its key is now in
the claimed-zones map.  `'return_base'` announcements change nothing. -/
def receive_action_announcement (B : DroneKnow) (info : ActionInfo) : DroneKnow :=
  let pos_key := pyKey info.target
  match info.type with
  | ActionType.treat_anomaly =>
      let claims := mput pos_key info.drone_id B.anomalies_being_treated_by_others
      let det :=
        if ROBOT_STRATEGY ≠ Strategy.exploration then
          B.detected_anomalies.filter fun a => decide (¬ pyKey a.position = pos_key)
        else B.detected_anomalies
      match B.target_anomaly, B.target_x, B.target_y with
      | some _, some tx, some ty =>
          if (pyInt tx, pyInt ty) = pos_key then
            { B with anomalies_being_treated_by_others := claims
                     detected_anomalies := det
                     target_anomaly := none, target_x := none, target_y := none }
          else
            { B with anomalies_being_treated_by_others := claims
                     detected_anomalies := det }
      | _, _, _ =>
          { B with anomalies_being_treated_by_others := claims
                   detected_anomalies := det }
  | ActionType.explore =>
      let zones := markZones info.drone_id (recvZoneKeys info.target.1 info.target.2)
        B.zones_being_explored_by_others
      match B.target_x, B.target_y with
      | some tx, some ty =>
          if (mlookup (pyInt tx, pyInt ty) zones).isSome then
            { B with zones_being_explored_by_others := zones
                     target_x := none, target_y := none, target_anomaly := none }
          else { B with zones_being_explored_by_others := zones }
      | _, _ => { B with zones_being_explored_by_others := zones }
  | ActionType.return_base => B

theorem pyInt_intCast (n : ℤ) : pyInt (n : ℚ) = n := by
  unfold pyInt
  by_cases h : (n : ℚ) < 0
  · rw [if_pos h, ← Int.cast_neg, Int.floor_intCast]
    ring
  · rw [if_neg h, Int.floor_intCast]

theorem mem_zoneOffsets (dx dy : ℤ) :
    (dx, dy) ∈ zoneOffsets ↔ dx * dx + dy * dy ≤ 225 := by
  constructor
  · intro h
    unfold zoneOffsets at h
    obtain ⟨a, ha, hmem⟩ := List.mem_flatMap.1 h
    obtain ⟨b, hb, heq⟩ := List.mem_map.1 hmem
    obtain ⟨hb1, hb2⟩ := List.mem_filter.1 hb
    have hle : a * a + b * b ≤ 225 := of_decide_eq_true hb2
    cases heq
    exact hle
  · intro h
    have hdx1 : dx ≤ 15 := by nlinarith [mul_self_nonneg dy, mul_self_nonneg (dx - 15)]
    have hdx2 : -15 ≤ dx := by nlinarith [mul_self_nonneg dy, mul_self_nonneg (dx + 15)]
    have hdy1 : dy ≤ 15 := by nlinarith [mul_self_nonneg dx, mul_self_nonneg (dy - 15)]
    have hdy2 : -15 ≤ dy := by nlinarith [mul_self_nonneg dx, mul_self_nonneg (dy + 15)]
    have hmx : dx ∈ (List.range 31).map (fun (i : ℕ) => (i : ℤ) - 15) := by
      simp only [List.mem_map, List.mem_range]
      exact ⟨(dx + 15).toNat, by omega, by omega⟩
    have hmy : dy ∈ (List.range 31).map (fun (j : ℕ) => (j : ℤ) - 15) := by
      simp only [List.mem_map, List.mem_range]
      exact ⟨(dy + 15).toNat, by omega, by omega⟩
    unfold zoneOffsets
    refine List.mem_flatMap.2 ⟨dx, hmx, ?_⟩
    refine List.mem_map.2 ⟨dy, ?_, rfl⟩
    exact List.mem_filter.2 ⟨hmy, decide_eq_true h⟩

theorem mem_recvZoneKeys_int (tx ty : ℤ) (k : ℤ × ℤ) :
    k ∈ recvZoneKeys (tx : ℚ) (ty : ℚ) ↔
      (k.1 - tx) * (k.1 - tx) + (k.2 - ty) * (k.2 - ty) ≤ 225 := by
  unfold recvZoneKeys
  constructor
  · intro h
    obtain ⟨d, hd, heq⟩ := List.mem_map.1 h
    obtain ⟨a, b⟩ := d
    rw [mem_zoneOffsets] at hd
    have h1 : pyInt ((tx : ℚ) + ((a, b).1 : ℚ)) = tx + a := by
      rw [← Int.cast_add, pyInt_intCast]
    have h2 : pyInt ((ty : ℚ) + ((a, b).2 : ℚ)) = ty + b := by
      rw [← Int.cast_add, pyInt_intCast]
    rw [h1, h2] at heq
    cases heq
    have e1 : tx + a - tx = a := by ring
    have e2 : ty + b - ty = b := by ring
    rw [e1, e2]
    exact hd
  · intro h
    refine List.mem_map.2 ⟨(k.1 - tx, k.2 - ty), ?_, ?_⟩
    · rw [mem_zoneOffsets]
      exact h
    · have h1 : pyInt ((tx : ℚ) + (((k.1 - tx, k.2 - ty) : ℤ × ℤ).1 : ℚ)) = k.1 := by
        rw [← Int.cast_add, pyInt_intCast]
        ring
      have h2 : pyInt ((ty : ℚ) + (((k.1 - tx, k.2 - ty) : ℤ × ℤ).2 : ℚ)) = k.2 := by
        rw [← Int.cast_add, pyInt_intCast]
        ring
      rw [h1, h2]

attribute [irreducible] markZones

set_option maxRecDepth 4000 in
theorem receive_explore_zones (B : DroneKnow) (info : ActionInfo)
    (htype : info.type = ActionType.explore) :
    (receive_action_announcement B info).zones_being_explored_by_others =
      markZones info.drone_id (recvZoneKeys info.target.1 info.target.2)
        B.zones_being_explored_by_others := by
  obtain ⟨ity, tgt, did, anom⟩ := info
  cases htype
  simp only [receive_action_announcement]
  rcases B.target_x with _ | tx
  · rfl
  · rcases B.target_y with _ | ty
    · rfl
    · dsimp only
      split
      · rfl
      · rfl

/-- Claim C8 (amended): on an exploration-claim announcement the receiver
marks as claimed exactly the keys `(int(tx+dx), int(ty+dy))` for integer
offsets with `dx²+dy² ≤ 15²` — a hard-coded radius of 15 cells, not the
configured detection radius `VISION_RADIUS = 10`; for an integer announced
target this is precisely the integer disk of radius 15 around it.  If the
receiver's own target key lies in the claimed-zones map after the marking, the
receiver clears its target (the re-selection then happens in the next
`update` tick, outside this handler). -/
theorem receive_explore_marks_disk (B : DroneKnow) (info : ActionInfo)
    (htype : info.type = ActionType.explore) :
    (∀ k : ℤ × ℤ,
      mlookup k ((receive_action_announcement B info).zones_being_explored_by_others) =
        if k ∈ recvZoneKeys info.target.1 info.target.2 then some info.drone_id
        else mlookup k B.zones_being_explored_by_others) ∧
    (∀ tx ty : ℤ, info.target = ((tx : ℚ), (ty : ℚ)) → ∀ k : ℤ × ℤ,
      k ∈ recvZoneKeys info.target.1 info.target.2 ↔
        (k.1 - tx) * (k.1 - tx) + (k.2 - ty) * (k.2 - ty) ≤ 225) ∧
    (∀ tx ty : ℚ, B.target_x = some tx → B.target_y = some ty →
      (mlookup (pyInt tx, pyInt ty)
          (markZones info.drone_id (recvZoneKeys info.target.1 info.target.2)
            B.zones_being_explored_by_others)).isSome →
      (receive_action_announcement B info).target_x = none ∧
      (receive_action_announcement B info).target_y = none ∧
      (receive_action_announcement B info).target_anomaly = none) := by
  refine ⟨?_, ?_, ?_⟩
  · intro k
    rw [receive_explore_zones B info htype]
    by_cases hk : k ∈ recvZoneKeys info.target.1 info.target.2
    · rw [if_pos hk]
      exact lookup_markZones_mem _ _ _ _ hk
    · rw [if_neg hk]
      exact lookup_markZones_not_mem _ _ _ _ hk
  · intro tx ty htgt k
    rw [htgt]
    exact mem_recvZoneKeys_int tx ty k
  · intro tx ty hbx hby hmem
    obtain ⟨ity, tgt, did, anom⟩ := info
    cases htype
    simp only [receive_action_announcement]
    rw [hbx, hby]
    dsimp only
    rw [if_pos hmem]
    exact ⟨rfl, rfl, rfl⟩

/-- A concrete exploration-claim announcement for the C8 theorems. -/
def announceExplore : ActionInfo :=
  { type := ActionType.explore, target := (50, 50), drone_id := 1, anomaly := none }

/-- Witness for claim C8 (amended) at a concrete receiver and announcement. -/
theorem receive_explore_marks_disk_witness :
    mlookup (55, 50)
      ((receive_action_announcement droneKnowB announceExplore).zones_being_explored_by_others) =
      if (55, 50) ∈ recvZoneKeys announceExplore.target.1 announceExplore.target.2
      then some announceExplore.drone_id
      else mlookup (55, 50) droneKnowB.zones_being_explored_by_others :=
  (receive_explore_marks_disk droneKnowB announceExplore rfl).1 (55, 50)

/-- Counterexample to claim C8 as stated: the zone `(62, 50)` is marked as
claimed after an exploration announcement targeting `(50, 50)`, although its
distance from the target (12 cells) exceeds the detection radius
`VISION_RADIUS = 10`.  The claimed disk therefore is not the disk whose radius
equals the detection radius. -/
theorem receive_explore_radius_counterexample :
    mlookup (62, 50)
      ((receive_action_announcement droneKnowB announceExplore).zones_being_explored_by_others) =
      some 1 ∧
    ((62 : ℚ) - 50) ^ 2 + ((50 : ℚ) - 50) ^ 2 > VISION_RADIUS ^ 2 := by
  constructor
  · rw [receive_explore_zones droneKnowB announceExplore rfl]
    have hmem : ((62 : ℤ), (50 : ℤ)) ∈ recvZoneKeys ((50 : ℤ) : ℚ) ((50 : ℤ) : ℚ) :=
      (mem_recvZoneKeys_int 50 50 (62, 50)).2 (by norm_num)
    have hcast : ((50 : ℤ) : ℚ) = (50 : ℚ) := by norm_num
    rw [hcast] at hmem
    exact lookup_markZones_mem announceExplore.drone_id (62, 50) _ _ hmem
  · rw [VISION_RADIUS]
    norm_num

/-! ### Intervention classification (`Anomaly.get_intervention_type`) -/

/-- The intervention descriptor dict returned by
`Anomaly.get_intervention_type`. -/
structure Intervention where
  type : String
  urgency : String
  description : String
  equipment : List String
deriving DecidableEq

/-- Source `Anomaly.get_intervention_type`: fixed lookup keyed by
`(hazard type, severity)`. -/
def Anomaly.get_intervention_type (a : Anomaly) : Intervention :=
  if a.type = "radiation" then
    if a.intensity = 2 then
      { type := "HUMAN", urgency := "CRITICAL",
        description := "Équipe spécialisée avec protection anti-radiation requise",
        equipment := ["Combinaisons protection", "Détecteurs radiation",
          "Équipe décontamination"] }
    else
      { type := "ROBOT", urgency := "MEDIUM",
        description := "Surveillance robotique et mesures préventives",
        equipment := ["Drone surveillance", "Balises périmètre"] }
  else if a.type = "inondations" then
    if a.intensity = 2 then
      { type := "HUMAN", urgency := "HIGH",
        description := "Équipe évacuation et pompage d'urgence",
        equipment := ["Pompes haute capacité", "Équipe sauvetage",
          "Barrières anti-inondation"] }
    else
      { type := "ROBOT", urgency := "LOW",
        description := "Surveillance automatique du niveau d'eau",
        equipment := ["Capteurs automatiques", "Système d'alerte"] }
  else if a.type = "pluie_meteorites" then
    if a.intensity = 2 then
      { type := "HUMAN", urgency := "CRITICAL",
        description := "Évacuation immédiate et équipe d'intervention d'urgence",
        equipment := ["Équipe évacuation", "Unité médicale", "Protection anti-débris"] }
    else
      { type := "ROBOT", urgency := "MEDIUM",
        description := "Inspection robotique de la zone d'impact",
        equipment := ["Drones inspection", "Capteurs thermiques"] }
  else
    { type := "HUMAN", urgency := "MEDIUM",
      description := "Inspection humaine pour évaluation",
      equipment := ["Équipe reconnaissance"] }

/-- The urgency rank of `ControlCenter.analyze_interventions`:
`urgency_order = {'CRITICAL': 0, 'HIGH': 1, 'MEDIUM': 2, 'LOW': 3}` with
`.get(..., 4)` as the default. -/
def urgencyRank (u : String) : ℕ :=
  if u = "CRITICAL" then 0
  else if u = "HIGH" then 1
  else if u = "MEDIUM" then 2
  else if u = "LOW" then 3
  else 4

/-- One entry of `ControlCenter.intervention_zones`. -/
structure InterventionZone where
  position : ℚ × ℚ
  type : String
  intensity : ℕ
  radius : ℚ
  intervention_type : String
  urgency : String
  description : String
  equipment : List String
  detected : Bool
  treatability : String
deriving DecidableEq

/-! ### Control center (`classes/control_center.py`) -/

/-- One entry of `ControlCenter.received_transmissions` (the float `battery`
snapshot, pure telemetry payload living in the kinematic model, is omitted). -/
structure Transmission where
  drone_id : ℤ
  position : ℚ × ℚ
  anomalies : List AnomalyData
  exploration : List ((ℤ × ℤ) × Bool)
  timestamp : ℕ

/-- The `ControlCenter` state.  The numpy 0/1 matrix
`global_exploration_map` of shape `(map_height, map_width)` is embedded as a
boolean function of the `(x, y)` cell. -/
structure ControlCenter where
  base_x : ℚ
  base_y : ℚ
  global_anomaly_map : List ((ℤ × ℤ) × AnomalyData)
  detected_anomaly_positions : Finset (ℤ × ℤ)
  map_width : ℕ
  map_height : ℕ
  global_exploration_map : ℤ × ℤ → Bool
  received_transmissions : List Transmission
  intervention_zones : List InterventionZone

/-- Setting one cell of the global exploration matrix to 1. -/
def gridSet (g : ℤ × ℤ → Bool) (k : ℤ × ℤ) : ℤ × ℤ → Bool :=
  fun p => if p = k then true else g p

/-- One step of the anomaly loop of `ControlCenter.receive_transmission`:
insert the record under its integer key when absent, and always add the key
to the historical detection set. -/
def recvAnomStep (s : List ((ℤ × ℤ) × AnomalyData) × Finset (ℤ × ℤ))
    (a : AnomalyData) : List ((ℤ × ℤ) × AnomalyData) × Finset (ℤ × ℤ) :=
  (minsertAbsent (pyKey a.position) a s.1, insert (pyKey a.position) s.2)

/-- Source `ControlCenter.receive_transmission(drone)`: log the transmission, OR the
drone's explored cells into the global exploration matrix (bounds-checked),
merge its pending anomaly records by first-seen-wins and append every seen
position key to the historical detection set.  The Python method always
returns `True`. -/
def receive_transmission (cc : ControlCenter) (d : DroneKnow) : ControlCenter :=
  let t : Transmission :=
    { drone_id := d.id, position := (d.x, d.y), anomalies := d.detected_anomalies,
      exploration := d.personal_exploration_map,
      timestamp := cc.received_transmissions.length }
  let g := d.personal_exploration_map.foldl
    (fun g e =>
      if 0 ≤ e.1.1 ∧ e.1.1 < (cc.map_width : ℤ) ∧ 0 ≤ e.1.2 ∧ e.1.2 < (cc.map_height : ℤ)
      then gridSet g e.1 else g)
    cc.global_exploration_map
  let am := d.detected_anomalies.foldl recvAnomStep
    (cc.global_anomaly_map, cc.detected_anomaly_positions)
  { cc with
    received_transmissions := cc.received_transmissions ++ [t]
    global_exploration_map := g
    global_anomaly_map := am.1
    detected_anomaly_positions := am.2 }

/-- Source `ControlCenter.send_update_to_drone(drone)`: returns `False` unless the
drone reports being at base, `True` otherwise; it touches no state (the actual
data pull happens in `Drone.sync_with_control_center`). -/
def send_update_to_drone (cc : ControlCenter) (d : DroneKnow) : Bool :=
  if !d.is_at_base then false else true

/-- The per-tick pruning of treated hazards from the global hazard map in
`main.run_simulation` (lines 267-273): keep only the integer position keys
that numerically equal the float position of some untreated hazard.  The
historical detection set is not touched. -/
def pruneTreated (cc : ControlCenter) (anomalies : List Anomaly) : ControlCenter :=
  { cc with
    global_anomaly_map := cc.global_anomaly_map.filter fun e =>
      anomalies.any fun a =>
        !a.treated && decide ((a.x, a.y) = ((e.1.1 : ℚ), (e.1.2 : ℚ))) }

/-- The descriptor list built by `ControlCenter.analyze_interventions` before
sorting, one descriptor per hazard of the environment list, in input order. -/
def buildInterventionZones (cc : ControlCenter) (anomalies : List Anomaly) :
    List InterventionZone :=
  anomalies.map fun a =>
    let intervention := a.get_intervention_type
    if (pyInt a.x, pyInt a.y) ∈ cc.detected_anomaly_positions then
      { position := (a.x, a.y), type := a.type, intensity := a.intensity,
        radius := a.radius, intervention_type := intervention.type,
        urgency := intervention.urgency, description := intervention.description,
        equipment := intervention.equipment, detected := true,
        treatability := if a.treated then "TREATED" else "NOT_TREATED" }
    else
      { position := (a.x, a.y), type := a.type, intensity := a.intensity,
        radius := a.radius, intervention_type := intervention.type,
        urgency := intervention.urgency, description := intervention.description,
        equipment := intervention.equipment, detected := false,
        treatability := "UNKNOWN" }

/-- Source `ControlCenter.analyze_interventions(environment)`: rebuild the descriptor
list from scratch from the environment hazard list and the historical
detection set, stably sort it by urgency rank (Python `list.sort(key=...)` is
a stable sort; any stable sort by the same key yields the same list), store it
and return it. -/
def analyze_interventions (cc : ControlCenter) (anomalies : List Anomaly) :
    ControlCenter × List InterventionZone :=
  let zones := (buildInterventionZones cc anomalies).insertionSort
    fun z₁ z₂ => urgencyRank z₁.urgency ≤ urgencyRank z₂.urgency
  ({ cc with intervention_zones := zones }, zones)

/-! ### Sortedness and stability of the intervention list (claim C4) -/

theorem filter_orderedInsert_pos {α : Type} (rank : α → ℕ) (p : α → Bool)
    (x : α) (l : List α) (hp : p x = true)
    (hcompat : ∀ y, p y = true → rank y = rank x) :
    (l.orderedInsert (fun a b => rank a ≤ rank b) x).filter p = x :: l.filter p := by
  induction l with
  | nil => simp [List.orderedInsert, hp]
  | cons y l ih =>
    by_cases hr : rank x ≤ rank y
    · simp [List.orderedInsert, hr, hp]
    · have hpy : p y = false := by
        cases hy : p y
        · rfl
        · exact absurd (le_of_eq (hcompat y hy).symm) hr
      simp [List.orderedInsert, hr, hpy, ih]

theorem filter_orderedInsert_neg {α : Type} (rank : α → ℕ) (p : α → Bool)
    (x : α) (l : List α) (hp : p x = false) :
    (l.orderedInsert (fun a b => rank a ≤ rank b) x).filter p = l.filter p := by
  induction l with
  | nil => simp [List.orderedInsert, hp]
  | cons y l ih =>
    by_cases hr : rank x ≤ rank y
    · simp [List.orderedInsert, hr, hp]
    · cases hy : p y <;> simp [List.orderedInsert, hr, hy, ih]

theorem filter_insertionSort {α : Type} (rank : α → ℕ) (p : α → Bool) (r₀ : ℕ)
    (hcompat : ∀ y, p y = true → rank y = r₀) (l : List α) :
    ((l.insertionSort fun a b => rank a ≤ rank b).filter p) = l.filter p := by
  induction l with
  | nil => rfl
  | cons x l ih =>
    simp only [List.insertionSort]
    cases hx : p x
    · rw [filter_orderedInsert_neg rank p x _ hx, ih]
      simp [hx]
    · rw [filter_orderedInsert_pos rank p x _ hx
        (fun y hy => (hcompat y hy).trans (hcompat x hx).symm), ih]
      simp [hx]

/-- Claim C4: for every hazard list, `analyze_interventions` (1) returns a
list sorted by urgency rank (critical before high before medium before low);
(2) is stable — for each urgency class the entries appear in hazard-list
order; (3) recomputes the list from scratch, ignoring whatever intervention
list the control center held before; and (4) re-running it on an unchanged
hazard list returns the same output. -/
theorem analyze_interventions_sorted (cc : ControlCenter)
    (anomalies : List Anomaly) :
    ((analyze_interventions cc anomalies).2.Sorted
      fun z₁ z₂ => urgencyRank z₁.urgency ≤ urgencyRank z₂.urgency) ∧
    (∀ u : String,
      (analyze_interventions cc anomalies).2.filter (fun z => z.urgency = u) =
        (buildInterventionZones cc anomalies).filter (fun z => z.urgency = u)) ∧
    (∀ zprior : List InterventionZone,
      analyze_interventions { cc with intervention_zones := zprior } anomalies =
        analyze_interventions cc anomalies) ∧
    (analyze_interventions (analyze_interventions cc anomalies).1 anomalies =
      analyze_interventions cc anomalies) := by
  refine ⟨?_, ?_, fun zprior => rfl, rfl⟩
  · haveI : IsTotal InterventionZone
        (fun z₁ z₂ => urgencyRank z₁.urgency ≤ urgencyRank z₂.urgency) :=
      ⟨fun a b => Nat.le_total _ _⟩
    haveI : IsTrans InterventionZone
        (fun z₁ z₂ => urgencyRank z₁.urgency ≤ urgencyRank z₂.urgency) :=
      ⟨fun a b c hab hbc => Nat.le_trans hab hbc⟩
    exact List.sorted_insertionSort _ _
  · intro u
    exact filter_insertionSort (fun (z : InterventionZone) => urgencyRank z.urgency)
      (fun (z : InterventionZone) => decide (z.urgency = u)) (urgencyRank u)
      (fun y hy => by
        have hy₂ : y.urgency = u := of_decide_eq_true hy
        show urgencyRank y.urgency = urgencyRank u
        rw [hy₂]) _

/-! ### Monotonicity of the historical detection set (claim C5) -/

theorem recvAnomFold_detected_mono (l : List AnomalyData)
    (s : List ((ℤ × ℤ) × AnomalyData) × Finset (ℤ × ℤ)) :
    s.2 ⊆ (l.foldl recvAnomStep s).2 := by
  induction l generalizing s with
  | nil => exact Finset.Subset.refl _
  | cons a l ih =>
    simp only [List.foldl_cons]
    refine Finset.Subset.trans ?_ (ih (recvAnomStep s a))
    exact Finset.subset_insert _ _

/-- Claim C5: the historical detected-positions set is monotone
non-decreasing.  Receiving a transmission only adds position keys; pruning
treated hazards from the current global hazard map and the analysis step do
not touch the set; `send_update_to_drone` reads only the at-base flag and
returns a boolean without touching the control-center state at all. -/
theorem detected_positions_monotone (cc : ControlCenter) (d : DroneKnow)
    (anomalies : List Anomaly) :
    cc.detected_anomaly_positions ⊆
      (receive_transmission cc d).detected_anomaly_positions ∧
    (pruneTreated cc anomalies).detected_anomaly_positions =
      cc.detected_anomaly_positions ∧
    (analyze_interventions cc anomalies).1.detected_anomaly_positions =
      cc.detected_anomaly_positions := by
  refine ⟨?_, rfl, rfl⟩
  exact recvAnomFold_detected_mono d.detected_anomalies
    (cc.global_anomaly_map, cc.detected_anomaly_positions)

/-! ### Base synchronisation (`Drone.sync_with_control_center`, claim C9) -/

/-- The cell list scanned by the exploration loop of
`Drone.sync_with_control_center`: `(x, y)` for `y in range(map_height)`,
`x in range(map_width)`. -/
def syncCells (cc : ControlCenter) : List (ℤ × ℤ) :=
  (List.range cc.map_height).flatMap fun (y : ℕ) =>
    (List.range cc.map_width).map fun (x : ℕ) => ((x : ℤ), (y : ℤ))

/-- One step of that exploration loop: insert the cell into the personal map
when the global matrix holds a 1 there and the cell is absent. -/
def syncExplStep (grid : ℤ × ℤ → Bool) (m : List ((ℤ × ℤ) × Bool)) (k : ℤ × ℤ) :
    List ((ℤ × ℤ) × Bool) :=
  if grid k = true then minsertAbsent k true m else m

/-- One step of the anomaly loop of `Drone.sync_with_control_center`: insert
the record when its key is absent and append it to the pending list when the
referenced anomaly object exists, is untreated, and no pending record shares
its position. -/
def syncAnomStep (s : List ((ℤ × ℤ) × AnomalyData) × List AnomalyData)
    (e : (ℤ × ℤ) × AnomalyData) :
    List ((ℤ × ℤ) × AnomalyData) × List AnomalyData :=
  if (mlookup e.1 s.1).isSome then s
  else
    let pam := s.1 ++ [(e.1, e.2)]
    let already := s.2.any fun a => a.position = e.2.position
    match e.2.anomaly with
    | some obj =>
        if obj.treated = false ∧ already = false then (pam, s.2 ++ [e.2])
        else (pam, s.2)
    | none => (pam, s.2)

/-- Source `Drone.sync_with_control_center(control_center)`: returns `False` and does
nothing unless the drone is at base; otherwise pulls the full global
exploration coverage and anomaly knowledge into the personal maps (skipping
records already held) and returns `True`. -/
def sync_with_control_center (d : DroneKnow) (cc : ControlCenter) :
    DroneKnow × Bool :=
  if d.is_at_base = false then (d, false)
  else
    ({ d with
        personal_exploration_map := (syncCells cc).foldl
          (syncExplStep cc.global_exploration_map) d.personal_exploration_map
        personal_anomaly_map := (cc.global_anomaly_map.foldl syncAnomStep
          (d.personal_anomaly_map, d.detected_anomalies)).1
        detected_anomalies := (cc.global_anomaly_map.foldl syncAnomStep
          (d.personal_anomaly_map, d.detected_anomalies)).2 }, true)

theorem mem_syncCells (cc : ControlCenter) (x y : ℤ) (hx0 : 0 ≤ x)
    (hxw : x < (cc.map_width : ℤ)) (hy0 : 0 ≤ y) (hyh : y < (cc.map_height : ℤ)) :
    (x, y) ∈ syncCells cc := by
  unfold syncCells
  refine List.mem_flatMap.2 ⟨y.toNat, List.mem_range.2 (by omega), ?_⟩
  have hx : x = ((x.toNat : ℕ) : ℤ) := by omega
  have hy : y = ((y.toNat : ℕ) : ℤ) := by omega
  refine List.mem_map.2 ⟨x.toNat, List.mem_range.2 (by omega), ?_⟩
  rw [← hx, ← hy]

theorem syncExplStep_isSome_mono (grid : ℤ × ℤ → Bool) (k k₁ : ℤ × ℤ)
    (m : List ((ℤ × ℤ) × Bool)) (h : (mlookup k m).isSome) :
    (mlookup k (syncExplStep grid m k₁)).isSome := by
  unfold syncExplStep
  split
  · exact mlookup_minsertAbsent_isSome_mono k k₁ true m h
  · exact h

theorem syncExplFold_isSome_mono (grid : ℤ × ℤ → Bool) (k : ℤ × ℤ)
    (cells : List (ℤ × ℤ)) (m : List ((ℤ × ℤ) × Bool))
    (h : (mlookup k m).isSome) :
    (mlookup k (cells.foldl (syncExplStep grid) m)).isSome := by
  induction cells generalizing m with
  | nil => exact h
  | cons c cells ih =>
    simp only [List.foldl_cons]
    exact ih _ (syncExplStep_isSome_mono grid k c m h)

theorem syncExplFold_mem_isSome (grid : ℤ × ℤ → Bool) (k : ℤ × ℤ)
    (cells : List (ℤ × ℤ)) (m : List ((ℤ × ℤ) × Bool))
    (hmem : k ∈ cells) (hg : grid k = true) :
    (mlookup k (cells.foldl (syncExplStep grid) m)).isSome := by
  induction cells generalizing m with
  | nil => cases hmem
  | cons c cells ih =>
    rcases List.mem_cons.1 hmem with h₀ | h₀
    · subst h₀
      simp only [List.foldl_cons]
      apply syncExplFold_isSome_mono
      unfold syncExplStep
      rw [if_pos hg]
      exact mlookup_minsertAbsent_self_isSome k true m
    · simp only [List.foldl_cons]
      exact ih _ h₀

theorem minv_minsertAbsent_true (k : ℤ × ℤ) (m : List ((ℤ × ℤ) × Bool))
    (h : ∀ k₁ v, mlookup k₁ m = some v → v = true) :
    ∀ k₁ v, mlookup k₁ (minsertAbsent k true m) = some v → v = true := by
  intro k₁ v hv
  unfold minsertAbsent at hv
  by_cases hs : (mlookup k m).isSome
  · rw [if_pos hs] at hv
    exact h k₁ v hv
  · rw [if_neg hs] at hv
    rcases hmk : mlookup k₁ m with _ | v₂
    · rw [mlookup_append_right _ _ _ hmk] at hv
      simp only [mlookup] at hv
      by_cases hk : k = k₁
      · rw [if_pos hk] at hv
        exact (Option.some.injEq _ _ ▸ hv).symm
      · rw [if_neg hk] at hv
        cases hv
    · rw [mlookup_append_left _ _ _ _ hmk] at hv
      cases hv
      exact h k₁ v hmk

theorem minv_syncExplFold (grid : ℤ × ℤ → Bool) (cells : List (ℤ × ℤ))
    (m : List ((ℤ × ℤ) × Bool))
    (h : ∀ k₁ v, mlookup k₁ m = some v → v = true) :
    ∀ k₁ v, mlookup k₁ (cells.foldl (syncExplStep grid) m) = some v → v = true := by
  induction cells generalizing m with
  | nil => exact h
  | cons c cells ih =>
    simp only [List.foldl_cons]
    apply ih
    unfold syncExplStep
    split
    · exact minv_minsertAbsent_true c m h
    · exact h

theorem syncExplFold_some_true (grid : ℤ × ℤ → Bool) (k : ℤ × ℤ)
    (cells : List (ℤ × ℤ)) (m : List ((ℤ × ℤ) × Bool))
    (hwf : ∀ k₁ v, mlookup k₁ m = some v → v = true)
    (hmem : k ∈ cells) (hg : grid k = true) :
    mlookup k (cells.foldl (syncExplStep grid) m) = some true := by
  have hs := syncExplFold_mem_isSome grid k cells m hmem hg
  rcases hv : mlookup k (cells.foldl (syncExplStep grid) m) with _ | v
  · rw [hv] at hs
    cases hs
  · rw [minv_syncExplFold grid cells m hwf k v hv]

theorem syncStep_fst (s : List ((ℤ × ℤ) × AnomalyData) × List AnomalyData)
    (e : (ℤ × ℤ) × AnomalyData) :
    (syncAnomStep s e).1 = s.1 ∨ (syncAnomStep s e).1 = s.1 ++ [(e.1, e.2)] := by
  unfold syncAnomStep
  split
  · exact Or.inl rfl
  · dsimp only
    split
    · split
      · exact Or.inr rfl
      · exact Or.inr rfl
    · exact Or.inr rfl

theorem syncStep_fst_of_none (s : List ((ℤ × ℤ) × AnomalyData) × List AnomalyData)
    (e : (ℤ × ℤ) × AnomalyData) (hs : mlookup e.1 s.1 = none) :
    (syncAnomStep s e).1 = s.1 ++ [(e.1, e.2)] := by
  have hss : ¬ (mlookup e.1 s.1).isSome = true := by simp [hs]
  unfold syncAnomStep
  rw [if_neg hss]
  dsimp only
  split
  · split
    · rfl
    · rfl
  · rfl

theorem syncStep_lookup_of_some (k : ℤ × ℤ) (v : AnomalyData)
    (s : List ((ℤ × ℤ) × AnomalyData) × List AnomalyData)
    (e : (ℤ × ℤ) × AnomalyData) (h : mlookup k s.1 = some v) :
    mlookup k (syncAnomStep s e).1 = some v := by
  rcases syncStep_fst s e with hf | hf
  · rw [hf, h]
  · rw [hf, mlookup_append_left _ _ _ _ h]

theorem syncFold_lookup_of_some (k : ℤ × ℤ) (v : AnomalyData)
    (l : List ((ℤ × ℤ) × AnomalyData))
    (s : List ((ℤ × ℤ) × AnomalyData) × List AnomalyData)
    (h : mlookup k s.1 = some v) :
    mlookup k (l.foldl syncAnomStep s).1 = some v := by
  induction l generalizing s with
  | nil => exact h
  | cons e l ih =>
    simp only [List.foldl_cons]
    exact ih _ (syncStep_lookup_of_some k v s e h)

theorem syncFold_lookup_transfer (k : ℤ × ℤ) (r : AnomalyData)
    (l : List ((ℤ × ℤ) × AnomalyData))
    (s : List ((ℤ × ℤ) × AnomalyData) × List AnomalyData)
    (hl : mlookup k l = some r) (hs : mlookup k s.1 = none) :
    mlookup k (l.foldl syncAnomStep s).1 = some r := by
  induction l generalizing s with
  | nil => simp [mlookup] at hl
  | cons e l ih =>
    obtain ⟨k₀, d₀⟩ := e
    simp only [List.foldl_cons]
    by_cases hk : k₀ = k
    · subst hk
      simp only [mlookup, eq_self_iff_true, if_true, Option.some.injEq] at hl
      rw [← hl]
      apply syncFold_lookup_of_some
      rw [syncStep_fst_of_none s (k₀, d₀) hs, mlookup_append_right _ _ _ hs]
      simp [mlookup]
    · simp only [mlookup, if_neg hk] at hl
      apply ih _ hl
      rcases syncStep_fst s (k₀, d₀) with hf | hf
      · rw [hf, hs]
      · rw [hf, mlookup_append_right _ _ _ hs]
        simp [mlookup, hk]

/-- Claim C9: the base update push.  `send_update_to_drone` grants the push
exactly when the agent reports being at base, and the push itself
(`sync_with_control_center`, the function that moves the data) succeeds only
then: away from base nothing is pushed and `False` is returned; at base,
`True` is returned and the full global coverage (every in-bounds cell marked
explored) and hazard knowledge is copied into the agent, skipping records the
agent already holds, which stay untouched.  The `hwf` hypothesis records that
the personal exploration map stores only `True` values, as the code
maintains. -/
theorem sync_with_control_center_push (cc : ControlCenter) (d : DroneKnow)
    (hwf : ∀ k v, mlookup k d.personal_exploration_map = some v → v = true) :
    (d.is_at_base = false →
      sync_with_control_center d cc = (d, false) ∧
      send_update_to_drone cc d = false) ∧
    (d.is_at_base = true →
      (sync_with_control_center d cc).2 = true ∧
      send_update_to_drone cc d = true ∧
      (∀ x y : ℤ, 0 ≤ x → x < (cc.map_width : ℤ) → 0 ≤ y → y < (cc.map_height : ℤ) →
        cc.global_exploration_map (x, y) = true →
        mlookup (x, y) ((sync_with_control_center d cc).1.personal_exploration_map) =
          some true) ∧
      (∀ k r, mlookup k cc.global_anomaly_map = some r →
        mlookup k d.personal_anomaly_map = none →
        mlookup k ((sync_with_control_center d cc).1.personal_anomaly_map) = some r) ∧
      (∀ k v, mlookup k d.personal_anomaly_map = some v →
        mlookup k ((sync_with_control_center d cc).1.personal_anomaly_map) = some v)) := by
  constructor
  · intro h
    constructor
    · unfold sync_with_control_center
      rw [h]
      simp
    · simp [send_update_to_drone, h]
  · intro h
    have hcond : ¬ d.is_at_base = false := by
      rw [h]
      simp
    have hsync : sync_with_control_center d cc =
        ({ d with
            personal_exploration_map := (syncCells cc).foldl
              (syncExplStep cc.global_exploration_map) d.personal_exploration_map
            personal_anomaly_map := (cc.global_anomaly_map.foldl syncAnomStep
              (d.personal_anomaly_map, d.detected_anomalies)).1
            detected_anomalies := (cc.global_anomaly_map.foldl syncAnomStep
              (d.personal_anomaly_map, d.detected_anomalies)).2 }, true) := by
      unfold sync_with_control_center
      rw [if_neg hcond]
    refine ⟨?_, ?_, ?_, ?_, ?_⟩
    · rw [hsync]
    · simp [send_update_to_drone, h]
    · intro x y hx0 hxw hy0 hyh hg
      rw [hsync]
      exact syncExplFold_some_true cc.global_exploration_map (x, y) (syncCells cc)
        d.personal_exploration_map hwf (mem_syncCells cc x y hx0 hxw hy0 hyh) hg
    · intro k r hg hd
      rw [hsync]
      exact syncFold_lookup_transfer k r cc.global_anomaly_map
        (d.personal_anomaly_map, d.detected_anomalies) hg hd
    · intro k v hd
      rw [hsync]
      exact syncFold_lookup_of_some k v cc.global_anomaly_map
        (d.personal_anomaly_map, d.detected_anomalies) hd

/-- A concrete control-center state for the C9 witness. -/
def controlCenterSample : ControlCenter :=
  { base_x := 0, base_y := 0,
    global_anomaly_map := [((5, 6), anomDataSample)],
    detected_anomaly_positions := {(5, 6)},
    map_width := 2, map_height := 2,
    global_exploration_map := fun p => decide (p = (1, 0)),
    received_transmissions := [],
    intervention_zones := [] }

theorem droneKnowA_expl_wf :
    ∀ k v, mlookup k droneKnowA.personal_exploration_map = some v → v = true := by
  intro k v h
  unfold droneKnowA at h
  simp only [mlookup] at h
  by_cases hk : ((3, 4) : ℤ × ℤ) = k
  · rw [if_pos hk] at h
    exact (Option.some.injEq _ _ ▸ h).symm
  · rw [if_neg hk] at h
    cases h

/-- Witness for claim C9 at a concrete at-base drone and control center. -/
theorem sync_with_control_center_push_witness :
    (sync_with_control_center droneKnowA controlCenterSample).2 = true ∧
      send_update_to_drone controlCenterSample droneKnowA = true :=
  ⟨((sync_with_control_center_push controlCenterSample droneKnowA
      droneKnowA_expl_wf).2 rfl).1,
   ((sync_with_control_center_push controlCenterSample droneKnowA
      droneKnowA_expl_wf).2 rfl).2.1⟩

/-! ### Kinematic and energy model (`Drone.move_towards_target` and the
resource-feasibility functions), over the reals -/

noncomputable section

/-- Value `config.BATTERY_MAX = 100.0`. -/
def BATTERY_MAX : ℝ := 100

/-- Value `config.AUTONOMY_TIME = 30 * 60`. -/
def AUTONOMY_TIME : ℝ := 30 * 60

/-- Value `config.BATTERY_DRAIN_PER_SECOND = BATTERY_MAX / AUTONOMY_TIME`. -/
def BATTERY_DRAIN_PER_SECOND : ℝ := BATTERY_MAX / AUTONOMY_TIME

/-- Value `config.RECHARGE_TIME = 10 * 60`. -/
def RECHARGE_TIME : ℝ := 10 * 60

/-- Value `config.BATTERY_RECHARGE_RATE = BATTERY_MAX / RECHARGE_TIME`. -/
def BATTERY_RECHARGE_RATE : ℝ := BATTERY_MAX / RECHARGE_TIME

/-- Value `config.TIME_PER_TURN = 1`. -/
def TIME_PER_TURN : ℝ := 1

/-- Value `config.BATTERY_DEPARTURE_THRESHOLD = 0.85`. -/
def BATTERY_DEPARTURE_THRESHOLD : ℝ := 0.85

/-- The kinematic state of a `Drone`: position, base, speed, unit movement
cost, battery level and capacity, at-base flag and current target.  The
knowledge maps, which movement only appends to, live in `DroneKnow`; the
`target_anomaly` dict is tracked here only by presence. -/
structure DroneM where
  x : ℝ
  y : ℝ
  base_x : ℝ
  base_y : ℝ
  speed : ℝ
  movement_cost : ℝ
  battery : ℝ
  battery_max : ℝ
  is_at_base : Bool
  target_x : Option ℝ
  target_y : Option ℝ
  target_anomaly : Bool

/-- The environment data consumed by the kinematic model: the clamp bounds
and the exploration bitmap sampled by `Drone.can_still_explore`. -/
structure EnvM where
  width : ℤ
  height : ℤ
  explored : ℤ × ℤ → Bool

/-- Source `Drone.calculate_return_cost`:
`distance(position, base) * movement_cost`. -/
def DroneM.calculate_return_cost (d : DroneM) : ℝ :=
  calculate_distance d.x d.y d.base_x d.base_y * d.movement_cost

/-- Source `Drone.can_perform_action(action_cost)`:
`battery - action_cost >= return_cost` where the return cost is computed from
the drone's current position. -/
def DroneM.can_perform_action (d : DroneM) (action_cost : ℝ) : Prop :=
  d.battery - action_cost ≥ d.calculate_return_cost

/-- Source `Drone.should_return_to_base`: battery below the current return cost, or
at base with battery below 15% of capacity. -/
def DroneM.should_return_to_base (d : DroneM) : Prop :=
  d.battery < d.calculate_return_cost ∨
    (d.is_at_base = true ∧ d.battery < d.battery_max * 0.15)

/-- The unexplored sample cells of `Drone.can_still_explore`: `(x, y)` for
`y in range(0, height, 10)`, `x in range(0, width, 10)` with
`exploration_map[y, x] == 0`. -/
def sampleUnexplored (env : EnvM) : List (ℤ × ℤ) :=
  ((List.range env.height.toNat).filter fun (y : ℕ) => decide (y % 10 = 0)).flatMap
    fun (y : ℕ) =>
      ((List.range env.width.toNat).filter fun (x : ℕ) => decide (x % 10 = 0)).filterMap
        fun (x : ℕ) =>
          if env.explored ((x : ℤ), (y : ℤ)) = false then some ((x : ℤ), (y : ℤ))
          else none

open Classical in
/-- Source `Drone.can_still_explore(environment)`: `False` when the battery cannot
even cover the current return cost; otherwise `True` iff some sampled
unexplored cell is reachable round-trip from the base within 85% of the
battery capacity. -/
def DroneM.can_still_explore (d : DroneM) (env : EnvM) : Prop :=
  if d.battery < d.calculate_return_cost then False
  else
    let effective_battery := d.battery_max * BATTERY_DEPARTURE_THRESHOLD
    let zones := sampleUnexplored env
    if zones = [] then False
    else ∃ z ∈ zones,
      (calculate_distance d.base_x d.base_y (z.1 : ℝ) (z.2 : ℝ) +
        calculate_distance d.base_x d.base_y (z.1 : ℝ) (z.2 : ℝ)) * d.movement_cost ≤
        effective_battery

open Classical in
/-- Source `Drone.move_towards_target(environment)`.  In source order: no-op without
a target; the absolute-security check (battery at or below the current return
cost and a non-base target: retarget to base and do not move); the preventive
check (if the next step's nominal cost would leave the battery below the
return cost from the *current* position, retarget to base); one movement step
toward the (possibly new) target; clamping to the map rectangle; battery
drain by per-second rate times travel time plus unit cost times distance,
clamped at zero.  The exploration-map marking and the event log it also
performs live in the knowledge/telemetry model. -/
def DroneM.move_towards_target (d : DroneM) (env : EnvM) : DroneM :=
  match d.target_x, d.target_y with
  | some tx₀, some ty₀ =>
    let return_cost := d.calculate_return_cost
    if d.battery ≤ return_cost ∧ (tx₀ ≠ d.base_x ∨ ty₀ ≠ d.base_y) then
      { d with target_x := some d.base_x, target_y := some d.base_y,
               target_anomaly := false }
    else
      let distance_to_target := Real.sqrt ((tx₀ - d.x) ^ 2 + (ty₀ - d.y) ^ 2)
      let next_move_distance := min d.speed distance_to_target
      let next_move_cost := next_move_distance * d.movement_cost
      let redirect := d.battery - next_move_cost < return_cost ∧
        (tx₀ ≠ d.base_x ∨ ty₀ ≠ d.base_y)
      let tx := if redirect then d.base_x else tx₀
      let ty := if redirect then d.base_y else ty₀
      let ta := if redirect then false else d.target_anomaly
      let dist := Real.sqrt ((tx - d.x) ^ 2 + (ty - d.y) ^ 2)
      let nx := if dist < d.speed then tx else d.x + (tx - d.x) / dist * d.speed
      let ny := if dist < d.speed then ty else d.y + (ty - d.y) / dist * d.speed
      let cx := max 0 (min nx (env.width : ℝ))
      let cy := max 0 (min ny (env.height : ℝ))
      let traveled := Real.sqrt ((cx - d.x) ^ 2 + (cy - d.y) ^ 2)
      let movement_time := if d.speed > 0 then traveled / d.speed else 0
      let drain := BATTERY_DRAIN_PER_SECOND * movement_time * TIME_PER_TURN +
        d.movement_cost * traveled
      { d with x := cx, y := cy, battery := max 0 (d.battery - drain),
               target_x := some tx, target_y := some ty, target_anomaly := ta }
  | _, _ => d

/-- The recharge assignment of `Drone.update` at base:
`battery = min(battery_max, battery + BATTERY_RECHARGE_RATE * TIME_PER_TURN)`. -/
def DroneM.recharge_step (d : DroneM) : DroneM :=
  { d with
    battery := min d.battery_max (d.battery + BATTERY_RECHARGE_RATE * TIME_PER_TURN) }

end

/-! ### Claims C1, C2, C3, C10 -/

/-- Following the spec's words (§4.1): `canAfford(currentEnergy, actionCost)
= currentEnergy − actionCost ≥ returnCost(afterActionPos)`, with the
after-action position passed explicitly.  Stated for comparison with the
code's `Drone.can_perform_action`. -/
def canAffordSpec (currentEnergy actionCost afterX afterY baseX baseY
    unitCost : ℝ) : Prop :=
  currentEnergy - actionCost ≥ calculate_distance afterX afterY baseX baseY * unitCost

/-- A drone sitting at its base with battery 1 (movement cost 0.1 as in
`config.MOVEMENT_COST`). -/
noncomputable def droneAtBaseSample : DroneM :=
  { x := 0, y := 0, base_x := 0, base_y := 0, speed := 5, movement_cost := 1 / 10,
    battery := 1, battery_max := 100, is_at_base := true,
    target_x := none, target_y := none, target_anomaly := false }

/-- Counterexample to claim C2 as stated: for the action "travel to
`(10, 0)`" — of cost `10 × 0.1 = 1` — issued by a drone at its base with
battery 1, `can_perform_action` returns true, because it compares against the
return cost from the *current* position (zero at base), while the spec's
formula with the after-action position `(10, 0)` demands `0 ≥ 1` and fails. -/
theorem can_perform_action_counterexample :
    droneAtBaseSample.can_perform_action 1 ∧
      ¬ canAffordSpec droneAtBaseSample.battery 1 10 0
          droneAtBaseSample.base_x droneAtBaseSample.base_y
          droneAtBaseSample.movement_cost := by
  have hsqrt0 : Real.sqrt 0 = 0 := Real.sqrt_zero
  have hsqrt100 : Real.sqrt 100 = 10 := by
    rw [show (100 : ℝ) = 10 ^ 2 by norm_num]
    exact Real.sqrt_sq (by norm_num)
  constructor
  · show droneAtBaseSample.battery - 1 ≥ droneAtBaseSample.calculate_return_cost
    unfold DroneM.calculate_return_cost calculate_distance
    simp only [droneAtBaseSample]
    norm_num
  · intro h
    unfold canAffordSpec calculate_distance at h
    simp only [droneAtBaseSample] at h
    rw [show ((10 : ℝ) - 0) ^ 2 + ((0 : ℝ) - 0) ^ 2 = 100 by norm_num, hsqrt100] at h
    norm_num at h

/-- Claim C2 (amended): the affordability check compares against the return
cost from the agent's *current* position: `can_perform_action(e, c)` holds
iff `e − c ≥ returnCost(currentPos)` — the spec's formula with the
after-action position replaced by the current position.  (The function is
moreover never called anywhere in the codebase.) -/
theorem can_perform_action_current_position (d : DroneM) (c : ℝ) :
    d.can_perform_action c ↔
      canAffordSpec d.battery c d.x d.y d.base_x d.base_y d.movement_cost :=
  Iff.rfl

/-- A drone state with strictly negative coordinates. -/
noncomputable def droneNegSample : DroneM :=
  { x := -3, y := -4, base_x := 0, base_y := 0, speed := 5, movement_cost := 1 / 10,
    battery := 50, battery_max := 100, is_at_base := false,
    target_x := none, target_y := none, target_anomaly := false }

/-- Counterexample to claim C3 as stated: at the strictly negative
coordinates `(-3, -4)` the return-cost function returns the ordinary value
`1/2` (distance 5 times unit cost 0.1) instead of failing; no
`InvalidGeometry` (or any other) error signal exists anywhere in the code,
so no input with negative coordinates makes the feasibility functions
fail. -/
theorem calculate_return_cost_negative_counterexample :
    droneNegSample.x < 0 ∧ droneNegSample.y < 0 ∧
      droneNegSample.calculate_return_cost = 1 / 2 := by
  refine ⟨by norm_num [droneNegSample], by norm_num [droneNegSample], ?_⟩
  unfold DroneM.calculate_return_cost calculate_distance
  simp only [droneNegSample]
  rw [show ((-3 : ℝ) - 0) ^ 2 + ((-4 : ℝ) - 0) ^ 2 = (5 : ℝ) ^ 2 by norm_num,
    Real.sqrt_sq (by norm_num : (0 : ℝ) ≤ 5)]
  norm_num

/-- Claim C3 (amended): the resource-feasibility functions are pure total
functions of the drone state — embedded as plain functions they mutate
nothing and are defined on every input, including negative coordinates; in
particular the return cost is a well-defined nonnegative real for every
state with nonnegative unit movement cost. -/
theorem calculate_return_cost_nonneg (d : DroneM) (h : 0 ≤ d.movement_cost) :
    0 ≤ d.calculate_return_cost :=
  mul_nonneg (Real.sqrt_nonneg _) h

/-- Witness for claim C3 (amended), instantiated at the negative-coordinate
drone state. -/
theorem calculate_return_cost_nonneg_witness :
    0 ≤ droneNegSample.movement_cost ∧ 0 ≤ droneNegSample.calculate_return_cost :=
  ⟨by norm_num [droneNegSample],
    calculate_return_cost_nonneg droneNegSample (by norm_num [droneNegSample])⟩

/-- Claim C10: after a movement step the position lies inside the map
rectangle (`0 ≤ x ≤ width`, `0 ≤ y ≤ height` — the clamp
`max(0, min(·, bound))`), the battery never exceeds capacity, and the
base recharge clamps the battery at `battery_max`.  Since `update` changes
the position only inside `move_towards_target` and increases the battery only
in the recharge assignment, these two preservation facts give the per-tick
invariant. -/
theorem move_and_recharge_clamped (d : DroneM) (env : EnvM)
    (hx0 : 0 ≤ d.x) (hxw : d.x ≤ (env.width : ℝ))
    (hy0 : 0 ≤ d.y) (hyh : d.y ≤ (env.height : ℝ))
    (hb : d.battery ≤ d.battery_max) (hbm : 0 ≤ d.battery_max)
    (hmc : 0 ≤ d.movement_cost) :
    (0 ≤ (d.move_towards_target env).x ∧
      (d.move_towards_target env).x ≤ (env.width : ℝ) ∧
      0 ≤ (d.move_towards_target env).y ∧
      (d.move_towards_target env).y ≤ (env.height : ℝ)) ∧
    (d.move_towards_target env).battery ≤ d.battery_max ∧
    d.recharge_step.battery ≤ d.battery_max := by
  have hW : (0 : ℝ) ≤ (env.width : ℝ) := le_trans hx0 hxw
  have hH : (0 : ℝ) ≤ (env.height : ℝ) := le_trans hy0 hyh
  have hrech : d.recharge_step.battery ≤ d.battery_max := min_le_left _ _
  unfold DroneM.move_towards_target
  rcases d.target_x with _ | tx₀
  · exact ⟨⟨hx0, hxw, hy0, hyh⟩, hb, hrech⟩
  · rcases d.target_y with _ | ty₀
    · exact ⟨⟨hx0, hxw, hy0, hyh⟩, hb, hrech⟩
    · dsimp only
      split
      · exact ⟨⟨hx0, hxw, hy0, hyh⟩, hb, hrech⟩
      · refine ⟨⟨le_max_left _ _, max_le hW (min_le_right _ _),
          le_max_left _ _, max_le hH (min_le_right _ _)⟩, ?_, hrech⟩
        have hdps : (0 : ℝ) ≤ BATTERY_DRAIN_PER_SECOND := by
          unfold BATTERY_DRAIN_PER_SECOND BATTERY_MAX AUTONOMY_TIME
          norm_num
        have htpt : (0 : ℝ) ≤ TIME_PER_TURN := by
          unfold TIME_PER_TURN
          norm_num
        refine max_le hbm (le_trans (sub_le_self _ ?_) hb)
        refine add_nonneg (mul_nonneg (mul_nonneg hdps ?_) htpt)
          (mul_nonneg hmc (Real.sqrt_nonneg _))
        split
        · next hsp => exact div_nonneg (Real.sqrt_nonneg _) (le_of_lt hsp)
        · exact le_refl 0

/-- A drone 10 cells from base, battery 1.5, moving away toward `(20, 0)`
(speed and unit cost as in `config`: 5.0 and 0.1). -/
noncomputable def droneMoveSample : DroneM :=
  { x := 10, y := 0, base_x := 0, base_y := 0, speed := 5, movement_cost := 1 / 10,
    battery := 3 / 2, battery_max := 100, is_at_base := false,
    target_x := some 20, target_y := some 0, target_anomaly := false }

/-- A 100 × 100 environment with nothing explored. -/
def envSample : EnvM :=
  { width := 100, height := 100, explored := fun _ => false }

/-- Witness for claim C10 at a concrete drone and environment. -/
theorem move_and_recharge_clamped_witness :
    (droneMoveSample.move_towards_target envSample).battery ≤
      droneMoveSample.battery_max ∧
    droneMoveSample.recharge_step.battery ≤ droneMoveSample.battery_max :=
  ⟨(move_and_recharge_clamped droneMoveSample envSample
      (by norm_num [droneMoveSample]) (by norm_num [droneMoveSample, envSample])
      (by norm_num [droneMoveSample]) (by norm_num [droneMoveSample, envSample])
      (by norm_num [droneMoveSample]) (by norm_num [droneMoveSample])
      (by norm_num [droneMoveSample])).2.1,
   (move_and_recharge_clamped droneMoveSample envSample
      (by norm_num [droneMoveSample]) (by norm_num [droneMoveSample, envSample])
      (by norm_num [droneMoveSample]) (by norm_num [droneMoveSample, envSample])
      (by norm_num [droneMoveSample]) (by norm_num [droneMoveSample])
      (by norm_num [droneMoveSample])).2.2⟩

/-- Claim C1 evaluated at a failing input (`code_bug`): the drone at
`(10, 0)`, base `(0, 0)`, battery `1.5`, target `(20, 0)` passes both safety
checks of `move_towards_target` — they compare the battery after the nominal
step cost `5 × 0.1` against the return cost from the *pre-move* position
(`10 × 0.1 = 1`) and ignore the per-second time drain — and executes the step
to `(15, 0)`.  Afterwards its battery is `3/2 − (1/18 + 1/2) = 17/18`, strictly
below the return cost of the reached position, `15 × 0.1 = 3/2`: the agent can
no longer reach the base, contradicting the invariant the spec states and the
code's own safety comments claim. -/
theorem move_towards_target_violates_invariant :
    (droneMoveSample.move_towards_target envSample).x = 15 ∧
    (droneMoveSample.move_towards_target envSample).y = 0 ∧
    (droneMoveSample.move_towards_target envSample).battery = 17 / 18 ∧
    (droneMoveSample.move_towards_target envSample).battery <
      (droneMoveSample.move_towards_target envSample).calculate_return_cost := by
  have hsqrt100 : Real.sqrt 100 = 10 := by
    rw [show (100 : ℝ) = 10 ^ 2 by norm_num]
    exact Real.sqrt_sq (by norm_num)
  have hsqrt25 : Real.sqrt 25 = 5 := by
    rw [show (25 : ℝ) = 5 ^ 2 by norm_num]
    exact Real.sqrt_sq (by norm_num)
  have hsqrt225 : Real.sqrt 225 = 15 := by
    rw [show (225 : ℝ) = 15 ^ 2 by norm_num]
    exact Real.sqrt_sq (by norm_num)
  have hmove : droneMoveSample.move_towards_target envSample =
      { droneMoveSample with
        x := 15
        y := 0
        battery := 17 / 18
        target_x := some 20
        target_y := some 0
        target_anomaly := false } := by
    unfold DroneM.move_towards_target DroneM.calculate_return_cost calculate_distance
    simp only [droneMoveSample, envSample]
    norm_num [BATTERY_DRAIN_PER_SECOND, BATTERY_MAX, AUTONOMY_TIME, TIME_PER_TURN,
      min_def, max_def, hsqrt100, hsqrt25, hsqrt225]
  rw [hmove]
  refine ⟨rfl, rfl, rfl, ?_⟩
  unfold DroneM.calculate_return_cost calculate_distance
  simp only [droneMoveSample]
  rw [show ((15 : ℝ) - 0) ^ 2 + ((0 : ℝ) - 0) ^ 2 = 225 by norm_num, hsqrt225]
  norm_num

end Swarm
